import Mathlib

set_option autoImplicit false
set_option maxRecDepth 8000

/-!
Shallow embedding of gogeta's `etcdwatcher.go`: the entity model, the key-path
decoding helpers, and the two registrars (`registerDomain`, `registerService`),
together with theorems checking the specification's claims about them.

Modelling conventions:
* etcd reads are an input (`EtcdStore`): `store key recursive` is the outcome of
  `client.Get(key, true, recursive)`, with `none` an error reply.
* Go maps are association lists (`lookupA` / `insertA` / `eraseA`); a
  `map[string]string` field that may be Go-`nil` is an `Option` of such a list.
* A Go runtime panic (indexing a nil regexp submatch, dereferencing a nil
  pointer, writing to a nil map) is the `none` result of the embedded function.
* Registrars return, besides the new registry, the list of publish log events
  they emitted and the list of `client.Get` calls they performed, in order.
-/

namespace Gogeta

/-- An etcd node as delivered by the go-etcd client: key, value, child nodes. -/
inductive Node where
  | mk (key : String) (value : String) (nodes : List Node)

/-- The key of a node. -/
def Node.key : Node → String
  | .mk k _ _ => k

/-- The value stored at a node. -/
def Node.value : Node → String
  | .mk _ v _ => v

/-- The child nodes of a node. -/
def Node.nodes : Node → List Node
  | .mk _ _ ns => ns

/-- The two etcd prefixes the watcher takes from its configuration. -/
structure Config where
  domainPrefix : String
  servicePrefix : String

/-- The etcd read capability used by the registrars: `store key recursive` is
the `response.Node` of `client.Get(key, true, recursive)`; `none` is an error. -/
def EtcdStore : Type := String → Bool → Option Node

/-- One `client.Get` call a registrar performed: the key and the `recursive` flag. -/
abbrev ReadCall := String × Bool

/-- Lookup in a Go map modelled as an association list (`m[k]`). -/
def lookupA {α : Type} : List (String × α) → String → Option α
  | [], _ => none
  | (k', v) :: t, k => if k' = k then some v else lookupA t k

/-- Insert-or-replace in a Go map modelled as an association list (`m[k] = v`). -/
def insertA {α : Type} : List (String × α) → String → α → List (String × α)
  | [], k, v => [(k, v)]
  | (k', v') :: t, k, v => if k' = k then (k, v) :: t else (k', v') :: insertA t k v

/-- Removal from a Go map modelled as an association list (`delete(m, k)`). -/
def eraseA {α : Type} : List (String × α) → String → List (String × α)
  | [], _ => []
  | (k', v') :: t, k => if k' = k then eraseA t k else (k', v') :: eraseA t k

/-- A Go `map[string]string` that may be nil: `delete` on a nil map is a no-op. -/
def goMapDelete (m : Option (List (String × String))) (k : String) :
    Option (List (String × String)) :=
  m.map (fun l => eraseA l k)

/-- gogeta's `Domain`: the `typ` and `value` fields plus the per-domain config
map. A `Domain{}` literal leaves the map nil, hence the `Option`. -/
structure Domain where
  typ : String
  value : String
  config : Option (List (String × String))
deriving DecidableEq

/-- Modelled from the spec: `Domain.equals` (declared outside this file)
compares the two Domains by `kind`/`target` (here `typ`/`value`); a missing
current Domain counts as different. -/
def domainEquals (d : Domain) (other : Option Domain) : Bool :=
  match other with
  | none => false
  | some o => d.typ == o.typ && d.value == o.value

/-- The domain registry: Go `map[string]*Domain`; an absent key is nil. -/
abbrev DomainsReg := List (String × Domain)

/-- A publish log event emitted by a registrar (`glog.Infof` lines). -/
inductive PubEvent where
  | domainPub (name : String) (typ : String) (value : String)
  | servicePub (name : String) (loc : Option (String × Int))
  | serviceRemove (name : String)
deriving DecidableEq

/-- Whether a log event is a publish of an entity into a registry (the
"Registered domain" / "Registering service" lines, not the removal line). -/
def PubEvent.isPublish : PubEvent → Bool
  | .domainPub _ _ _ => true
  | .servicePub _ _ => true
  | .serviceRemove _ => false

/-- Strip `pat` from the front of `s`, character by character: `some` of the
remainder when `pat` is a prefix of `s`. Structural recursion so that it
evaluates inside the kernel. -/
def stripPre : List Char → List Char → Option (List Char)
  | [], s => some s
  | _ :: _, [] => none
  | p :: ps, c :: cs => if p = c then stripPre ps cs else none

/-- The suffix after the leftmost occurrence of `pat` in `s`; `none` when
`pat` does not occur. This is Go's unanchored regexp search for a pattern
beginning with the literal `pat`: the match starts at the first position
where the literal occurs. -/
def firstMatchTail (pat : List Char) : List Char → Option (List Char)
  | [] => stripPre pat []
  | c :: cs =>
    match stripPre pat (c :: cs) with
    | some rest => some rest
    | none => firstMatchTail pat cs

/-- Whether `pat` occurs as a substring of `s` (Go `regexp` literal search). -/
def hasSub (pat : List Char) : List Char → Bool
  | [] => decide (pat = [])
  | c :: cs => (stripPre pat (c :: cs)).isSome || hasSub pat cs

/-- The first `/`-segment of a string: `strings.Split(s, "/")[0]`. -/
def firstSeg : List Char → List Char
  | [] => []
  | c :: cs => if c = '/' then [] else c :: firstSeg cs

/-- The second `/`-segment when it exists: `strings.Split(s, "/")[1]`, `none`
modelling Go's index-out-of-range panic when the split has a single element. -/
def secondSeg : List Char → Option (List Char)
  | [] => none
  | c :: cs => if c = '/' then some (firstSeg cs) else secondSeg cs

/-- The text before and after the last occurrence of `pat` in `s` that leaves
a nonempty remainder: the two groups of Go's greedy `(.*)pat(.+)` matching,
where the greedy `.*` backtracks from the end. `none` when no occurrence of
`pat` has a nonempty remainder, i.e. the pattern does not match. -/
def lastSplit (pat : List Char) : List Char → Option (List Char × List Char)
  | [] => none
  | c :: cs =>
    match lastSplit pat cs with
    | some ba => some (c :: ba.1, ba.2)
    | none =>
      match stripPre pat (c :: cs) with
      | some rest => if rest = [] then none else some ([], rest)
      | none => none

/-- Go `regexp` search for the unanchored pattern `pre ++ "/(.*)"` (and for
the equivalent `pre ++ "/(.*)(/.*)*"`): the match starts at the leftmost
occurrence of the literal `pre ++ "/"` and the greedy group 1 is everything
after it; `none` exactly when `pre ++ "/"` does not occur in the key, which is
when the pattern has no match. (Store keys are newline-free paths, so Go's
`.`, which excludes newlines, matches every key character.) -/
def matchPrefixRest (pre key : String) : Option (List Char) :=
  firstMatchTail (pre ++ "/").data key.data

/-- `getDomainForNode`: `Split(FindStringSubmatch(key)[1], "/")[0]` for the
pattern `domainPrefix + "/(.*)"`. `none` models the Go panic (indexing a nil
submatch slice) when the pattern does not match. -/
def getDomainForNode (cfg : Config) (node : Node) : Option String :=
  (matchPrefixRest cfg.domainPrefix node.key).map (fun rest => String.mk (firstSeg rest))

/-- `getEnvForNode`: the first path segment after `servicePrefix + "/"`; `none`
models the Go panic when the pattern does not match. -/
def getEnvForNode (cfg : Config) (node : Node) : Option String :=
  (matchPrefixRest cfg.servicePrefix node.key).map (fun rest => String.mk (firstSeg rest))

/-- `getEnvIndexForNode`: `Split(...)[1]`, the second path segment after
`servicePrefix + "/"`; `none` models the Go panic when the pattern does not
match or the split has no second element. -/
def getEnvIndexForNode (cfg : Config) (node : Node) : Option String :=
  (matchPrefixRest cfg.servicePrefix node.key).bind
    (fun rest => (secondSeg rest).map String.mk)

/-- `isDomainConfiguration`: `MatchString` of `domainPrefix + "/.*/config.*"`.
The unanchored pattern matches exactly when some occurrence of the prefix is
followed, at or after its end, by `"/config"` — equivalently, when
`"/config"` occurs in the suffix after the leftmost `domainPrefix ++ "/"`
(anything after a later occurrence is also after the first). -/
def isDomainConfiguration (cfg : Config) (node : Node) : Bool :=
  match matchPrefixRest cfg.domainPrefix node.key with
  | some rest => hasSub "/config".data rest
  | none => false

/-- `getDomainConfiguration`: group 1 of `domainPrefix + "/.*/config/(.+)"`,
cut at its first `/` (`strings.Split(...)[0]`), paired with the node's value.
The unanchored match starts at the leftmost prefix occurrence (a match
starting at a later occurrence would also match from the first), and the
greedy `.*` pushes `"/config/"` to its last occurrence that leaves a nonempty
remainder. `none` models the Go panic on no match. -/
def getDomainConfiguration (cfg : Config) (node : Node) : Option (String × String) :=
  (matchPrefixRest cfg.domainPrefix node.key).bind fun rest =>
    (lastSplit "/config/".data rest).map fun g =>
      (String.mk (firstSeg g.2), node.value)

/-- `removeDomainConfiguration`: when `domainPrefix + "/(.*)/config/(.+)"`
matches, delete one key from the config map of `w.domains[submatch[1]]` — the
greedy group 1 is used whole as the registry key (the source applies
`strings.Split(...)[0]` only to group 2); a non-matching key is a no-op.
`none` models the Go nil-pointer panic when no Domain is registered under the
group-1 name (the method reads `w.domains[name].config` unguarded). -/
def removeDomainConfiguration (cfg : Config) (domains : DomainsReg) (node : Node) :
    Option DomainsReg :=
  match matchPrefixRest cfg.domainPrefix node.key with
  | none => some domains
  | some rest =>
    match lastSplit "/config/".data rest with
    | none => some domains
    | some g =>
      let dname := String.mk g.1
      let ckey := String.mk (firstSeg g.2)
      match lookupA domains dname with
      | none => none
      | some d => some (insertA domains dname { d with config := goMapDelete d.config ckey })

/-- `RemoveDomain`: `delete(w.domains, key)`. -/
def RemoveDomain (domains : DomainsReg) (key : String) : DomainsReg :=
  eraseA domains key

/-- The `switch node.Key` of `registerDomain`'s put path: fill the fresh
Domain's `typ` or `value` from a `type` or `value` child. -/
def domainFieldUpdate (n : Node) (domainKey : String) (d : Domain) : Domain :=
  if n.key = domainKey ++ "/type" then { d with typ := n.value }
  else if n.key = domainKey ++ "/value" then { d with value := n.value }
  else d

/-- The child walk of `registerDomain`'s put path (source lines 107-119): build
the fresh Domain from the `type` and `value` children (`domainFieldUpdate`),
and perform the in-place config-map write
`w.domains[w.getDomainForNode(node)].config[key] = value` for every child
matching the config pattern. `none` models a Go panic (nil submatch slice in
`getDomainConfiguration`, nil `*Domain`, or a write to a nil map). -/
def registerDomainWalk (cfg : Config) (domains : DomainsReg) (nodes : List Node)
    (domainKey : String) (d : Domain) : Option (DomainsReg × Domain) :=
  match nodes with
  | [] => some (domains, d)
  | n :: ns =>
    if isDomainConfiguration cfg n then
      match getDomainConfiguration cfg n with
      | none => none
      | some kv =>
        match getDomainForNode cfg n with
        | none => none
        | some dn =>
          match lookupA domains dn with
          | none => none
          | some dd =>
            match dd.config with
            | none => none
            | some m =>
              registerDomainWalk cfg (insertA domains dn { dd with config := some (insertA m kv.1 kv.2) })
                ns domainKey (domainFieldUpdate n domainKey d)
    else registerDomainWalk cfg domains ns domainKey (domainFieldUpdate n domainKey d)

/-- The domain registrar `registerDomain`: one changed node plus an action,
against the domain registry. The `client.Get(domainKey, true, false)` happens
before the action dispatch, exactly as in the source; its result is unused on
the delete/expire path. `none` models a Go panic. -/
def registerDomain (cfg : Config) (store : EtcdStore) (domains : DomainsReg)
    (node : Node) (action : String) :
    Option (DomainsReg × List PubEvent × List ReadCall) :=
  match getDomainForNode cfg node with
  | none => none
  | some domainName =>
    let domainKey := cfg.domainPrefix ++ "/" ++ domainName
    let resp := store domainKey false
    let reads : List ReadCall := [(domainKey, false)]
    if action = "delete" ∨ action = "expire" then
      if isDomainConfiguration cfg node then
        (removeDomainConfiguration cfg domains node).map (fun ds => (ds, [], reads))
      else
        some (RemoveDomain domains domainName, [], reads)
    else
      match resp with
      | none => some (domains, [], reads)
      | some respNode =>
        match registerDomainWalk cfg domains respNode.nodes domainKey
            { typ := "", value := "", config := none } with
        | none => none
        | some out =>
          let domains1 := out.1
          let fresh := out.2
          let actualDomain := lookupA domains1 domainName
          if fresh.typ ≠ "" ∧ fresh.value ≠ "" ∧ domainEquals fresh actualDomain = false then
            some (insertA domains1 domainName fresh,
              [PubEvent.domainPub domainName fresh.typ fresh.value], reads)
          else
            some (domains1, [], reads)

/-- gogeta's `location`, decoded from the JSON location value. -/
structure location where
  Host : String
  Port : Int
deriving DecidableEq

/-- Modelled from the spec: the per-service configuration blob (`ServiceConfig`,
declared outside this file); the synchronizer treats it as an opaque decoded
value, so it is modelled as an opaque wrapper. -/
structure ServiceConfig where
  blob : String
deriving DecidableEq

/-- The zero `ServiceConfig` (`&ServiceConfig{}`). -/
def emptyServiceConfig : ServiceConfig := ⟨""⟩

/-- gogeta's `Status`: the three leaves copied verbatim. The Go struct also
holds a back-pointer to its owning Service; per the spec a Status is its
`alive`/`current`/`expected` flags, so the pointer carries no content here. -/
structure Status where
  alive : String
  current : String
  expected : String
deriving DecidableEq

/-- gogeta's `Service`: one instance of a named service. -/
structure Service where
  name : String
  index : String
  nodeKey : String
  location : location
  domain : String
  config : ServiceConfig
  status : Option Status
deriving DecidableEq

/-- Modelled from the spec: `ServiceCluster` (declared outside this file) holds
the instances registered under one service name, keyed by instance index. -/
structure ServiceCluster where
  instances : List (String × Service)
deriving DecidableEq

/-- Modelled from the spec: `ServiceCluster.Get` returns the instance at an
index or a not-found indicator, never failing on an empty cluster. -/
def ServiceCluster.Get (c : ServiceCluster) (index : String) : Option Service :=
  lookupA c.instances index

/-- Modelled from the spec: `ServiceCluster.Add` inserts or replaces the
instance at its index. -/
def ServiceCluster.Add (c : ServiceCluster) (s : Service) : ServiceCluster :=
  ⟨insertA c.instances s.index s⟩

/-- Modelled from the spec: `Service.equals` (declared outside this file) is
field-by-field structural equality across every attribute; a missing current
instance counts as different. -/
def serviceEquals (actual : Option Service) (s : Service) : Bool :=
  match actual with
  | none => false
  | some a => decide (a = s)

/-- The service registry: Go `map[string]*ServiceCluster`. -/
abbrev ServicesReg := List (String × ServiceCluster)

/-- `RemoveEnv`: `delete(w.services, serviceName)`. -/
def RemoveEnv (services : ServicesReg) (serviceName : String) : ServicesReg :=
  eraseA services serviceName

/-- Modelled from the spec: the JSON decoding capability ("parse this value
into structure T") behind `json.Unmarshal` into a `location`; `none` is a
decode error. -/
def ParseLocation : Type := String → Option location

/-- Modelled from the spec: the JSON decoding capability for the service
configuration blob; `none` is a decode error. -/
def ParseServiceConfig : Type := String → Option ServiceConfig

/-- The `switch node.Key` of the per-instance walk of `registerService`
(source lines 206-245): fill one field of the Service being built from one
child node of the instance subtree. A decode failure leaves the field as it
was and the walk continues. -/
def serviceFieldUpdate (pl : ParseLocation) (pc : ParseServiceConfig)
    (serviceKey : String) (s : Service) (n : Node) : Service :=
  if n.key = serviceKey ++ "/location" then
    match pl n.value with
    | some l => { s with location := ⟨l.Host, l.Port⟩ }
    | none => s
  else if n.key = serviceKey ++ "/config" then
    n.nodes.foldl (fun s2 sub =>
      if sub.key = serviceKey ++ "/config" ++ "/gogeta" then
        match pc sub.value with
        | some c => { s2 with config := c }
        | none => s2
      else s2) s
  else if n.key = serviceKey ++ "/domain" then
    { s with domain := n.value }
  else if n.key = serviceKey ++ "/status" then
    { s with status := some (n.nodes.foldl (fun st sub =>
        if sub.key = serviceKey ++ "/status" ++ "/alive" then { st with alive := sub.value }
        else if sub.key = serviceKey ++ "/status" ++ "/current" then { st with current := sub.value }
        else if sub.key = serviceKey ++ "/status" ++ "/expected" then { st with expected := sub.value }
        else st) ⟨"", "", ""⟩) }
  else s

/-- The per-instance build of `registerService` (source lines 193-245): the
fresh Service with `name`/`index`/`nodeKey` set and a zero location, filled
from the instance's child nodes by `serviceFieldUpdate`. The build itself
never fails, so the surrounding registrar is not aborted by decode errors. -/
def buildService (pl : ParseLocation) (pc : ParseServiceConfig)
    (serviceName serviceIndex serviceKey : String) (nodes : List Node) : Service :=
  nodes.foldl (serviceFieldUpdate pl pc serviceKey)
    { name := serviceName, index := serviceIndex, nodeKey := serviceKey,
      location := ⟨"", 0⟩, domain := "", config := emptyServiceConfig, status := none }

/-- The etcd key of one service instance,
`w.config.servicePrefix + "/" + serviceName + "/" + serviceIndex`. -/
def instanceKey (cfg : Config) (serviceName serviceIndex : String) : String :=
  cfg.servicePrefix ++ "/" ++ serviceName ++ "/" ++ serviceIndex

/-- Source lines 189-191: create an empty cluster under `serviceName` when the
registry holds none (`if w.services[serviceName] == nil`). -/
def ensureCluster (services : ServicesReg) (serviceName : String) : ServicesReg :=
  if (lookupA services serviceName).isNone then insertA services serviceName ⟨[]⟩
  else services

/-- The publish log line of source lines 251-255: host and port when the
location is populated, the "without location" form otherwise. -/
def servicePubEvent (serviceName : String) (service : Service) : PubEvent :=
  if service.location.Host ≠ "" ∧ service.location.Port ≠ 0 then
    PubEvent.servicePub serviceName (some (service.location.Host, service.location.Port))
  else PubEvent.servicePub serviceName none

/-- The loop of `registerService` over the service's index nodes (source lines
178-259): for each index, read the instance subtree; on a successful read,
create the cluster if absent (`ensureCluster`), return removing the whole
cluster when the action is delete, otherwise build the instance and publish it
into the cluster when it differs from the one currently stored at its index.
Returns the registry, the emitted publish log events and the `client.Get`
calls of this loop, in order. `none` models a Go panic. -/
def serviceLoop (cfg : Config) (store : EtcdStore) (pl : ParseLocation)
    (pc : ParseServiceConfig) (serviceName action : String) :
    List Node → ServicesReg → Option (ServicesReg × List PubEvent × List ReadCall)
  | [], services => some (services, [], [])
  | indexNode :: rest, services =>
    match getEnvIndexForNode cfg indexNode with
    | none => none
    | some serviceIndex =>
      match store (instanceKey cfg serviceName serviceIndex) true with
      | none =>
        (serviceLoop cfg store pl pc serviceName action rest services).map
          (fun out => (out.1, out.2.1, (instanceKey cfg serviceName serviceIndex, true) :: out.2.2))
      | some resp =>
        if action = "delete" then
          some (RemoveEnv (ensureCluster services serviceName) serviceName,
            [PubEvent.serviceRemove serviceName],
            [(instanceKey cfg serviceName serviceIndex, true)])
        else
          if serviceEquals
              (((lookupA (ensureCluster services serviceName) serviceName).getD ⟨[]⟩).Get
                (buildService pl pc serviceName serviceIndex
                  (instanceKey cfg serviceName serviceIndex) resp.nodes).index)
              (buildService pl pc serviceName serviceIndex
                (instanceKey cfg serviceName serviceIndex) resp.nodes) = false then
            (serviceLoop cfg store pl pc serviceName action rest
                (insertA (ensureCluster services serviceName) serviceName
                  (((lookupA (ensureCluster services serviceName) serviceName).getD ⟨[]⟩).Add
                    (buildService pl pc serviceName serviceIndex
                      (instanceKey cfg serviceName serviceIndex) resp.nodes)))).map
              (fun out => (out.1,
                servicePubEvent serviceName
                  (buildService pl pc serviceName serviceIndex
                    (instanceKey cfg serviceName serviceIndex) resp.nodes) :: out.2.1,
                (instanceKey cfg serviceName serviceIndex, true) :: out.2.2))
          else
            (serviceLoop cfg store pl pc serviceName action rest
                (ensureCluster services serviceName)).map
              (fun out => (out.1, out.2.1, (instanceKey cfg serviceName serviceIndex, true) :: out.2.2))

/-- The service registrar `registerService`: resolve the service name from the
changed node, read the service's root key recursively, and run the index loop;
a failed root read only logs an error and mutates nothing. `none` models a Go
panic. -/
def registerService (cfg : Config) (store : EtcdStore) (pl : ParseLocation)
    (pc : ParseServiceConfig) (services : ServicesReg) (node : Node) (action : String) :
    Option (ServicesReg × List PubEvent × List ReadCall) :=
  match getEnvForNode cfg node with
  | none => none
  | some serviceName =>
    match store (cfg.servicePrefix ++ "/" ++ serviceName) true with
    | none => some (services, [], [(cfg.servicePrefix ++ "/" ++ serviceName, true)])
    | some rootNode =>
      (serviceLoop cfg store pl pc serviceName action rootNode.nodes services).map
        (fun out => (out.1, out.2.1, (cfg.servicePrefix ++ "/" ++ serviceName, true) :: out.2.2))

/-- The instance stored at index `i` of the cluster registered under `name`. -/
def clusterGetAt (s : ServicesReg) (name i : String) : Option Service :=
  (lookupA s name).bind (fun c => c.Get i)

/-- The Service that `registerService` builds for index `i` of `serviceName`
from the store's current reply for that instance key; `none` when that read
fails. Deterministic in the store, so every pass over the same index yields
the same instance. -/
def canonicalBuild (cfg : Config) (store : EtcdStore) (pl : ParseLocation)
    (pc : ParseServiceConfig) (serviceName i : String) : Option Service :=
  (store (instanceKey cfg serviceName i) true).map
    (fun resp => buildService pl pc serviceName i (instanceKey cfg serviceName i) resp.nodes)

/-- Two registry lookups that agree on presence and on the `typ`/`value`
fields (the domain walk's in-place writes touch only config maps). -/
def typValRel (x y : Option Domain) : Prop :=
  (x = none ∧ y = none) ∨
    ∃ a b, x = some a ∧ y = some b ∧ a.typ = b.typ ∧ a.value = b.value

/-- A sample configuration used by the concrete runs below. -/
def gcfg : Config := ⟨"/domains", "/services"⟩

/-- A store on which every read fails. -/
def storeNone : EtcdStore := fun _ _ => none

/-- A parse capability that always reports a decode error. -/
def parseFail : ParseLocation := fun _ => none

/-- A parse capability for the config blob that always reports a decode error. -/
def parseCfgFail : ParseServiceConfig := fun _ => none

/-- A store whose reply for domain `d` holds only the `type` and `value`
children, as a non-recursive read of a domain without settings returns. -/
def storePlainDomain : EtcdStore := fun k _ =>
  if k = "/domains/d" then
    some (.mk "/domains/d" ""
      [.mk "/domains/d/type" "t" [], .mk "/domains/d/value" "v" []])
  else none

/-- A store whose reply for domain `d` also holds a settings leaf
`/domains/d/config/x`. -/
def storeConfigDomain : EtcdStore := fun k _ =>
  if k = "/domains/d" then
    some (.mk "/domains/d" ""
      [.mk "/domains/d/type" "t" [], .mk "/domains/d/value" "v" [],
       .mk "/domains/d/config/x" "s" []])
  else none

/-- A store with service `s` having instance indices `1` and `2`, each an
empty subtree. -/
def storeTwoInstances : EtcdStore := fun k _ =>
  if k = "/services/s" then
    some (.mk "/services/s" "" [.mk "/services/s/1" "" [], .mk "/services/s/2" "" []])
  else if k = "/services/s/1" then some (.mk "/services/s/1" "" [])
  else if k = "/services/s/2" then some (.mk "/services/s/2" "" [])
  else none

/-- The same store after instance `2` vanished (e.g. its keys expired): the
current subtree of `s` holds index `1` only. -/
def storeOneInstance : EtcdStore := fun k _ =>
  if k = "/services/s" then
    some (.mk "/services/s" "" [.mk "/services/s/1" "" []])
  else if k = "/services/s/1" then some (.mk "/services/s/1" "" [])
  else none

/-- The instance `registerService` builds for an empty instance subtree of
service `s`, index `i`, on `gcfg`. -/
def plainInstance (i : String) : Service :=
  { name := "s", index := i, nodeKey := "/services/s/" ++ i,
    location := ⟨"", 0⟩, domain := "", config := emptyServiceConfig, status := none }

/-- A parse capability that decodes exactly the location value of claim C6. -/
def parseSample : ParseLocation := fun v =>
  if v = "\x7b\"Host\":\"10.0.0.5\",\"Port\":8080\x7d" then some ⟨"10.0.0.5", 8080⟩
  else none

section AssocLemmas

variable {α : Type}

theorem lookupA_insertA_self (l : List (String × α)) (k : String) (v : α) :
    lookupA (insertA l k v) k = some v := by
  induction l with
  | nil => simp [insertA, lookupA]
  | cons h t ih =>
    obtain ⟨k', v'⟩ := h
    by_cases hk : k' = k
    · subst hk; simp [insertA, lookupA]
    · simp [insertA, lookupA, hk, ih]

theorem lookupA_insertA_ne (l : List (String × α)) (k k2 : String) (v : α) (h : k2 ≠ k) :
    lookupA (insertA l k v) k2 = lookupA l k2 := by
  induction l with
  | nil => simp [insertA, lookupA, Ne.symm h]
  | cons hd t ih =>
    obtain ⟨k', v'⟩ := hd
    by_cases hk : k' = k
    · subst hk
      simp [insertA, lookupA, Ne.symm h]
    · by_cases hk2 : k' = k2 <;> simp [insertA, lookupA, hk, hk2, h, ih]

theorem insertA_of_lookupA_eq (l : List (String × α)) (k : String) (v : α)
    (h : lookupA l k = some v) : insertA l k v = l := by
  induction l with
  | nil => simp [lookupA] at h
  | cons hd t ih =>
    obtain ⟨k', v'⟩ := hd
    by_cases hk : k' = k
    · subst hk
      simp [lookupA] at h
      simp [insertA, h]
    · simp [lookupA, hk] at h
      simp [insertA, hk, ih h]

theorem insertA_insertA (l : List (String × α)) (k : String) (v w : α) :
    insertA (insertA l k v) k w = insertA l k w := by
  induction l with
  | nil => simp [insertA]
  | cons hd t ih =>
    obtain ⟨k', v'⟩ := hd
    by_cases hk : k' = k
    · subst hk; simp [insertA]
    · simp [insertA, hk, ih]

theorem lookupA_eraseA_self (l : List (String × α)) (k : String) :
    lookupA (eraseA l k) k = none := by
  induction l with
  | nil => simp [eraseA, lookupA]
  | cons hd t ih =>
    obtain ⟨k', v'⟩ := hd
    by_cases hk : k' = k
    · simp [eraseA, hk, ih]
    · simp [eraseA, lookupA, hk, ih]

theorem lookupA_eraseA_ne (l : List (String × α)) (k k2 : String) (h : k2 ≠ k) :
    lookupA (eraseA l k) k2 = lookupA l k2 := by
  induction l with
  | nil => simp [eraseA]
  | cons hd t ih =>
    obtain ⟨k', v'⟩ := hd
    by_cases hk : k' = k
    · subst hk
      simp [eraseA, lookupA, Ne.symm h, ih]
    · by_cases hk2 : k' = k2 <;> simp [eraseA, lookupA, hk, hk2, h, ih]

theorem eraseA_of_lookupA_none (l : List (String × α)) (k : String)
    (h : lookupA l k = none) : eraseA l k = l := by
  induction l with
  | nil => simp [eraseA]
  | cons hd t ih =>
    obtain ⟨k', v'⟩ := hd
    by_cases hk : k' = k
    · subst hk; simp [lookupA] at h
    · simp [lookupA, hk] at h
      simp [eraseA, hk, ih h]

theorem eraseA_insertA (l : List (String × α)) (k : String) (v : α) :
    eraseA (insertA l k v) k = eraseA l k := by
  induction l with
  | nil => simp [insertA, eraseA]
  | cons hd t ih =>
    obtain ⟨k', v'⟩ := hd
    by_cases hk : k' = k
    · subst hk; simp [insertA, eraseA]
    · simp [insertA, eraseA, hk, ih]

end AssocLemmas

theorem typValRel_refl (x : Option Domain) : typValRel x x := by
  cases x with
  | none => exact Or.inl ⟨rfl, rfl⟩
  | some a => exact Or.inr ⟨a, a, rfl, rfl, rfl, rfl⟩

theorem typValRel_trans {x y z : Option Domain} (h1 : typValRel x y) (h2 : typValRel y z) :
    typValRel x z := by
  rcases h1 with ⟨hx, hy⟩ | ⟨a, b, hx, hy, ht, hv⟩
  · rcases h2 with ⟨_, hz⟩ | ⟨b, c, hy2, _, _, _⟩
    · exact Or.inl ⟨hx, hz⟩
    · rw [hy] at hy2; cases hy2
  · rcases h2 with ⟨hy2, _⟩ | ⟨b2, c, hy2, hz, ht2, hv2⟩
    · rw [hy] at hy2; cases hy2
    · rw [hy] at hy2
      injection hy2 with hb
      subst hb
      exact Or.inr ⟨a, c, hx, hz, ht.trans ht2, hv.trans hv2⟩

theorem domainEquals_congr (d : Domain) {x y : Option Domain} (h : typValRel x y) :
    domainEquals d x = domainEquals d y := by
  rcases h with ⟨hx, hy⟩ | ⟨a, b, hx, hy, ht, hv⟩
  · rw [hx, hy]
  · rw [hx, hy]
    simp [domainEquals, ht, hv]

theorem registerDomainWalk_typVal (cfg : Config) :
    ∀ (nodes : List Node) (domains : DomainsReg) (domainKey : String) (d : Domain)
      (out : DomainsReg × Domain),
      registerDomainWalk cfg domains nodes domainKey d = some out →
      ∀ k, typValRel (lookupA out.1 k) (lookupA domains k) := by
  intro nodes
  induction nodes with
  | nil =>
    intro domains dk d out h k
    unfold registerDomainWalk at h
    cases h
    exact typValRel_refl _
  | cons n ns ih =>
    intro domains dk d out h k
    unfold registerDomainWalk at h
    split at h
    · split at h
      next => simp at h
      next kv hkv =>
        split at h
        next => simp at h
        next dn hdn =>
          split at h
          next => simp at h
          next dd hdd =>
            split at h
            next => simp at h
            next m hm =>
              refine typValRel_trans (ih _ _ _ _ h k) ?_
              by_cases hk : k = dn
              · subst hk
                rw [lookupA_insertA_self, hdd]
                exact Or.inr ⟨_, _, rfl, rfl, rfl, rfl⟩
              · rw [lookupA_insertA_ne _ _ _ _ hk]
                exact typValRel_refl _
    · exact ih _ _ _ _ h k

theorem registerDomainWalk_structure (cfg : Config) (name : String) :
    ∀ (nodes : List Node) (domains : DomainsReg) (domainKey : String) (d : Domain)
      (out : DomainsReg × Domain),
      (∀ n ∈ nodes, getDomainForNode cfg n = some name) →
      registerDomainWalk cfg domains nodes domainKey d = some out →
      out.1 = domains ∨
        ∃ d0 v, lookupA domains name = some d0 ∧ out.1 = insertA domains name v := by
  intro nodes
  induction nodes with
  | nil =>
    intro domains dk d out _ h
    unfold registerDomainWalk at h
    cases h
    exact Or.inl rfl
  | cons n ns ih =>
    intro domains dk d out hwf h
    have hwf2 : ∀ n2 ∈ ns, getDomainForNode cfg n2 = some name :=
      fun n2 hn2 => hwf n2 (List.mem_cons_of_mem _ hn2)
    unfold registerDomainWalk at h
    split at h
    · split at h
      next => simp at h
      next kv hkv =>
        split at h
        next => simp at h
        next dn hdn =>
          have hdn2 : dn = name := by
            have := hwf n (List.mem_cons_self _ _)
            rw [hdn] at this
            injection this
          subst hdn2
          split at h
          next => simp at h
          next dd hdd =>
            split at h
            next => simp at h
            next m hm =>
              rcases ih _ _ _ _ hwf2 h with h1 | ⟨d0, v, _, h2⟩
              · exact Or.inr ⟨dd, _, hdd, h1⟩
              · rw [insertA_insertA] at h2
                exact Or.inr ⟨dd, v, hdd, h2⟩
    · exact ih _ _ _ _ hwf2 h

theorem registerDomain_put_eq (cfg : Config) (store : EtcdStore) (domains : DomainsReg)
    (node : Node) (action domainName : String) (resp : Node) (out1 : DomainsReg × Domain)
    (hname : getDomainForNode cfg node = some domainName)
    (hdel : action ≠ "delete") (hexp : action ≠ "expire")
    (hresp : store (cfg.domainPrefix ++ "/" ++ domainName) false = some resp)
    (hwalk : registerDomainWalk cfg domains resp.nodes (cfg.domainPrefix ++ "/" ++ domainName)
        { typ := "", value := "", config := none } = some out1) :
    registerDomain cfg store domains node action =
      (if out1.2.typ ≠ "" ∧ out1.2.value ≠ "" ∧
          domainEquals out1.2 (lookupA out1.1 domainName) = false then
        some (insertA out1.1 domainName out1.2,
          [PubEvent.domainPub domainName out1.2.typ out1.2.value],
          [(cfg.domainPrefix ++ "/" ++ domainName, false)])
      else some (out1.1, [], [(cfg.domainPrefix ++ "/" ++ domainName, false)])) := by
  simp only [registerDomain, hname]
  rw [if_neg (by simp [hdel, hexp])]
  simp only [hresp, hwalk]

theorem registerDomain_noop_of_entity_unchanged (cfg : Config) (store : EtcdStore)
    (domains : DomainsReg) (node : Node) (action domainName : String) (resp : Node)
    (out1 : DomainsReg × Domain) (out : DomainsReg × List PubEvent × List ReadCall)
    (hname : getDomainForNode cfg node = some domainName)
    (hdel : action ≠ "delete") (hexp : action ≠ "expire")
    (hresp : store (cfg.domainPrefix ++ "/" ++ domainName) false = some resp)
    (hwalk : registerDomainWalk cfg domains resp.nodes (cfg.domainPrefix ++ "/" ++ domainName)
        { typ := "", value := "", config := none } = some out1)
    (hwf : ∀ n ∈ resp.nodes, getDomainForNode cfg n = some domainName)
    (hrun : registerDomain cfg store domains node action = some out)
    (hsame : lookupA out.1 domainName = lookupA domains domainName) :
    out.1 = domains ∧ out.2.1 = [] := by
  rw [registerDomain_put_eq cfg store domains node action domainName resp out1
    hname hdel hexp hresp hwalk] at hrun
  have hrel := registerDomainWalk_typVal cfg _ _ _ _ _ hwalk domainName
  split at hrun
  next hcond =>
    exfalso
    cases hrun
    rw [lookupA_insertA_self] at hsame
    rcases hrel with ⟨_, hy⟩ | ⟨a, b, hx, hy, ht, hv⟩
    · rw [hy] at hsame; cases hsame
    · rw [hy] at hsame
      injection hsame with hb
      subst hb
      have : domainEquals out1.2 (lookupA out1.1 domainName) = true := by
        rw [hx]
        simp [domainEquals, ht, hv]
      rw [hcond.2.2] at this
      cases this
  next hcond =>
    cases hrun
    refine ⟨?_, rfl⟩
    rcases registerDomainWalk_structure cfg domainName _ _ _ _ _ hwf hwalk with h1 | ⟨d0, v, hd0, h2⟩
    · exact h1
    · simp only [h2, lookupA_insertA_self, hd0] at hsame
      injection hsame with hv2
      subst hv2
      rw [h2]
      exact insertA_of_lookupA_eq _ _ _ hd0

/-- C1: for every invocation of the domain registrar with a put action (any
action other than delete/expire) whose unconditional store read succeeds and
whose child walk completes without a Go panic, a Domain is published into the
domain registry (and a publish event emitted) if and only if the rebuilt
Domain has both `typ` (the spec's kind) and `value` (the spec's target)
non-empty and differs from the Domain currently registered under that name, a
missing current Domain counting as different; in particular a partially-loaded
Domain is never published. -/
theorem domain_publish_iff (cfg : Config) (store : EtcdStore) (domains : DomainsReg)
    (node : Node) (action domainName : String) (resp : Node)
    (out1 : DomainsReg × Domain) (out : DomainsReg × List PubEvent × List ReadCall)
    (hname : getDomainForNode cfg node = some domainName)
    (hdel : action ≠ "delete") (hexp : action ≠ "expire")
    (hresp : store (cfg.domainPrefix ++ "/" ++ domainName) false = some resp)
    (hwalk : registerDomainWalk cfg domains resp.nodes (cfg.domainPrefix ++ "/" ++ domainName)
        { typ := "", value := "", config := none } = some out1)
    (hrun : registerDomain cfg store domains node action = some out) :
    (out.2.1 ≠ [] ↔
      out1.2.typ ≠ "" ∧ out1.2.value ≠ "" ∧
        domainEquals out1.2 (lookupA domains domainName) = false) ∧
    (out.2.1 ≠ [] →
      out.1 = insertA out1.1 domainName out1.2 ∧
      out.2.1 = [PubEvent.domainPub domainName out1.2.typ out1.2.value]) ∧
    (out.2.1 = [] → out.1 = out1.1) := by
  rw [registerDomain_put_eq cfg store domains node action domainName resp out1
    hname hdel hexp hresp hwalk] at hrun
  have hcongr : domainEquals out1.2 (lookupA out1.1 domainName) =
      domainEquals out1.2 (lookupA domains domainName) :=
    domainEquals_congr _ (registerDomainWalk_typVal cfg _ _ _ _ _ hwalk domainName)
  split at hrun
  next hcond =>
    cases hrun
    refine ⟨?_, fun _ => ⟨rfl, rfl⟩, fun hemp => by simp at hemp⟩
    constructor
    · intro _
      exact ⟨hcond.1, hcond.2.1, by rw [← hcongr]; exact hcond.2.2⟩
    · intro _
      simp
  next hcond =>
    cases hrun
    refine ⟨?_, fun hne => absurd rfl hne, fun _ => rfl⟩
    constructor
    · intro hne
      exact absurd rfl hne
    · intro hc
      exact absurd ⟨hc.1, hc.2.1, by rw [hcongr]; exact hc.2.2⟩ hcond

theorem ClusterGet_Add_self (c : ServiceCluster) (s : Service) :
    (c.Add s).Get s.index = some s :=
  lookupA_insertA_self _ _ _

theorem ClusterGet_Add_ne (c : ServiceCluster) (s : Service) (i : String) (h : i ≠ s.index) :
    (c.Add s).Get i = c.Get i :=
  lookupA_insertA_ne _ _ _ _ h

theorem serviceEquals_false_ne (x : Option Service) (s : Service)
    (h : serviceEquals x s = false) : x ≠ some s := by
  intro hx
  subst hx
  simp [serviceEquals] at h

theorem serviceEquals_true_eq (x : Option Service) (s : Service)
    (h : serviceEquals x s = true) : x = some s := by
  cases x with
  | none => simp [serviceEquals] at h
  | some a =>
    simp only [serviceEquals, decide_eq_true_eq] at h
    rw [h]

theorem serviceFieldUpdate_index (pl : ParseLocation) (pc : ParseServiceConfig)
    (sk : String) (s : Service) (n : Node) :
    (serviceFieldUpdate pl pc sk s n).index = s.index := by
  unfold serviceFieldUpdate
  split
  · split <;> rfl
  split
  · generalize n.nodes = l
    induction l generalizing s with
    | nil => rfl
    | cons a t ih =>
      rw [List.foldl_cons]
      rw [ih]
      split
      · split <;> rfl
      · rfl
  split
  · rfl
  split <;> rfl

theorem foldl_serviceFieldUpdate_index (pl : ParseLocation) (pc : ParseServiceConfig)
    (sk : String) :
    ∀ (nodes : List Node) (init : Service),
      (nodes.foldl (serviceFieldUpdate pl pc sk) init).index = init.index := by
  intro nodes
  induction nodes with
  | nil => intro init; rfl
  | cons n ns ih =>
    intro init
    rw [List.foldl_cons, ih, serviceFieldUpdate_index]

theorem buildService_index (pl : ParseLocation) (pc : ParseServiceConfig)
    (sn si sk : String) (nodes : List Node) :
    (buildService pl pc sn si sk nodes).index = si := by
  unfold buildService
  rw [foldl_serviceFieldUpdate_index]

theorem lookupA_ensureCluster_self (services : ServicesReg) (name : String) :
    lookupA (ensureCluster services name) name =
      some ((lookupA services name).getD ⟨[]⟩) := by
  unfold ensureCluster
  rcases h : lookupA services name with _ | c
  · simp [h, lookupA_insertA_self]
  · simp [h]

theorem ensureCluster_of_some (services : ServicesReg) (name : String)
    (c : ServiceCluster) (h : lookupA services name = some c) :
    ensureCluster services name = services := by
  unfold ensureCluster
  simp [h]

theorem serviceLoop_cases (cfg : Config) (store : EtcdStore) (pl : ParseLocation)
    (pc : ParseServiceConfig) (serviceName action : String) :
    ∀ (nodes : List Node) (services : ServicesReg)
      (out : ServicesReg × List PubEvent × List ReadCall),
      serviceLoop cfg store pl pc serviceName action nodes services = some out →
      (out.1 = services ∧ out.2.1 = []) ∨
      (action = "delete" ∧ out.1 = eraseA services serviceName ∧
        out.2.1 = [PubEvent.serviceRemove serviceName]) ∨
      (¬action = "delete" ∧
        ((lookupA services serviceName = none ∧ (lookupA out.1 serviceName).isSome = true) ∨
         ∃ i, clusterGetAt out.1 serviceName i = canonicalBuild cfg store pl pc serviceName i ∧
           (canonicalBuild cfg store pl pc serviceName i).isSome = true ∧
           clusterGetAt services serviceName i ≠ canonicalBuild cfg store pl pc serviceName i)) := by
  intro nodes
  induction nodes with
  | nil =>
    intro services out h
    unfold serviceLoop at h
    cases h
    exact Or.inl ⟨rfl, rfl⟩
  | cons n ns ih =>
    intro services out h
    unfold serviceLoop at h
    split at h
    next => simp at h
    next serviceIndex hidx =>
      split at h
      next hstore =>
        rcases Option.map_eq_some'.mp h with ⟨o, ho, hout⟩
        subst hout
        simpa using ih _ _ ho
      next resp hstore =>
        have hcanon : canonicalBuild cfg store pl pc serviceName serviceIndex =
            some (buildService pl pc serviceName serviceIndex
              (instanceKey cfg serviceName serviceIndex) resp.nodes) := by
          unfold canonicalBuild
          rw [hstore]
          rfl
        split at h
        next hdel =>
          cases h
          refine Or.inr (Or.inl ⟨hdel, ?_, rfl⟩)
          show RemoveEnv (ensureCluster services serviceName) serviceName = _
          unfold RemoveEnv ensureCluster
          rcases hl : lookupA services serviceName with _ | c
          · simp only [hl, Option.isNone_none, if_true]
            exact eraseA_insertA _ _ _
          · simp [hl]
        next hdel =>
          split at h
          next hneq =>
            rcases Option.map_eq_some'.mp h with ⟨o, ho, hout⟩
            subst hout
            have hidx2 : (buildService pl pc serviceName serviceIndex
                (instanceKey cfg serviceName serviceIndex) resp.nodes).index = serviceIndex :=
              buildService_index _ _ _ _ _ _
            rcases ih _ _ ho with ⟨h1, _⟩ | ⟨hd, _, _⟩ | ⟨_, hcase⟩
            · refine Or.inr (Or.inr ⟨hdel, ?_⟩)
              rcases hl : lookupA services serviceName with _ | c0
              · refine Or.inl ⟨rfl, ?_⟩
                show (lookupA o.1 serviceName).isSome = true
                rw [h1, lookupA_insertA_self]
                rfl
              · refine Or.inr ⟨serviceIndex, ?_, ?_, ?_⟩
                · show clusterGetAt o.1 serviceName serviceIndex = _
                  rw [hcanon]
                  unfold clusterGetAt
                  rw [h1, lookupA_insertA_self]
                  show (ServiceCluster.Add _ _).Get serviceIndex = _
                  have hg := ClusterGet_Add_self
                    ((lookupA (ensureCluster services serviceName) serviceName).getD ⟨[]⟩)
                    (buildService pl pc serviceName serviceIndex
                      (instanceKey cfg serviceName serviceIndex) resp.nodes)
                  rw [hidx2] at hg
                  exact hg
                · rw [hcanon]; rfl
                · rw [hcanon]
                  unfold clusterGetAt
                  rw [hl]
                  show c0.Get serviceIndex ≠ _
                  have hact := serviceEquals_false_ne _ _ hneq
                  rw [lookupA_ensureCluster_self, hl] at hact
                  rw [hidx2] at hact
                  exact hact
            · exact absurd hd hdel
            · refine Or.inr (Or.inr ⟨hdel, ?_⟩)
              rcases hcase with ⟨hnone, _⟩ | ⟨i, h1, h2, h3⟩
              · exfalso
                rw [lookupA_insertA_self] at hnone
                cases hnone
              · by_cases hi : i = serviceIndex
                · exfalso
                  apply h3
                  rw [hi, hcanon]
                  unfold clusterGetAt
                  rw [lookupA_insertA_self]
                  show (ServiceCluster.Add _ _).Get serviceIndex = _
                  have hg := ClusterGet_Add_self
                    ((lookupA (ensureCluster services serviceName) serviceName).getD ⟨[]⟩)
                    (buildService pl pc serviceName serviceIndex
                      (instanceKey cfg serviceName serviceIndex) resp.nodes)
                  rw [hidx2] at hg
                  exact hg
                · have htrans : clusterGetAt
                      (insertA (ensureCluster services serviceName) serviceName
                        (((lookupA (ensureCluster services serviceName) serviceName).getD ⟨[]⟩).Add
                          (buildService pl pc serviceName serviceIndex
                            (instanceKey cfg serviceName serviceIndex) resp.nodes)))
                      serviceName i =
                      (((lookupA services serviceName).getD ⟨[]⟩) : ServiceCluster).Get i := by
                    unfold clusterGetAt
                    rw [lookupA_insertA_self]
                    show (ServiceCluster.Add _ _).Get i = _
                    rw [ClusterGet_Add_ne _ _ _ (by rw [hidx2]; exact hi),
                      lookupA_ensureCluster_self]
                    rfl
                  rcases hl : lookupA services serviceName with _ | c0
                  · refine Or.inl ⟨rfl, ?_⟩
                    rcases hlo : lookupA o.1 serviceName with _ | co
                    · exfalso
                      unfold clusterGetAt at h1
                      rw [hlo] at h1
                      rw [← h1] at h2
                      cases h2
                    · rfl
                  · refine Or.inr ⟨i, h1, h2, ?_⟩
                    rw [htrans, hl] at h3
                    unfold clusterGetAt
                    rw [hl]
                    exact h3
          next hneq =>
            have heq : serviceEquals
                (((lookupA (ensureCluster services serviceName) serviceName).getD ⟨[]⟩).Get
                  (buildService pl pc serviceName serviceIndex
                    (instanceKey cfg serviceName serviceIndex) resp.nodes).index)
                (buildService pl pc serviceName serviceIndex
                  (instanceKey cfg serviceName serviceIndex) resp.nodes) = true := by
              rcases hb : serviceEquals
                (((lookupA (ensureCluster services serviceName) serviceName).getD ⟨[]⟩).Get
                  (buildService pl pc serviceName serviceIndex
                    (instanceKey cfg serviceName serviceIndex) resp.nodes).index)
                (buildService pl pc serviceName serviceIndex
                  (instanceKey cfg serviceName serviceIndex) resp.nodes) with _ | _
              · exact absurd hb hneq
              · rfl
            have hsome := serviceEquals_true_eq _ _ heq
            rcases hl : lookupA services serviceName with _ | c0
            · exfalso
              rw [lookupA_ensureCluster_self, hl] at hsome
              simp [ServiceCluster.Get, lookupA] at hsome
            · rw [ensureCluster_of_some _ _ _ hl] at h
              rcases Option.map_eq_some'.mp h with ⟨o, ho, hout⟩
              subst hout
              have hres := ih _ _ ho
              rw [hl] at hres
              simpa using hres

theorem registerService_noop_of_entity_unchanged (cfg : Config) (store : EtcdStore)
    (pl : ParseLocation) (pc : ParseServiceConfig) (services : ServicesReg) (node : Node)
    (action serviceName : String) (out : ServicesReg × List PubEvent × List ReadCall)
    (hname : getEnvForNode cfg node = some serviceName)
    (hrun : registerService cfg store pl pc services node action = some out)
    (hsame : lookupA out.1 serviceName = lookupA services serviceName) :
    out.1 = services ∧ (∀ e ∈ out.2.1, e.isPublish = false) := by
  unfold registerService at hrun
  rw [hname] at hrun
  simp only at hrun
  split at hrun
  · cases hrun
    exact ⟨rfl, by simp⟩
  · rcases Option.map_eq_some'.mp hrun with ⟨o, ho, hout⟩
    subst hout
    simp only at hsame ⊢
    rcases serviceLoop_cases cfg store pl pc serviceName action _ _ _ ho with
      ⟨h1, h2⟩ | ⟨_, h1, h2⟩ | ⟨_, hcase⟩
    · exact ⟨h1, by simp [h2]⟩
    · rw [h1] at hsame ⊢
      rw [lookupA_eraseA_self] at hsame
      have hnone : lookupA services serviceName = none := hsame.symm
      exact ⟨eraseA_of_lookupA_none _ _ hnone, by simp [h2, PubEvent.isPublish]⟩
    · exfalso
      rcases hcase with ⟨hnone, hsome⟩ | ⟨i, h1, h2, h3⟩
      · rw [hsame, hnone] at hsome
        cases hsome
      · apply h3
        rw [← h1]
        unfold clusterGetAt
        rw [hsame]

/-- C9: for every change event whose application leaves the targeted entity
(the Domain registered under the resolved domain name, or the ServiceCluster
registered under the resolved service name) unchanged, the application was
already a no-op on the registry and emitted no publish log event, and
re-delivering the identical event (same store replies) returns the identical
result: no second publish and no registry change. The domain half assumes a
put action whose read and walk succeed with children of the domain's own key;
the service half covers every action. -/
theorem idempotent_when_entity_unchanged :
    (∀ (cfg : Config) (store : EtcdStore) (domains : DomainsReg) (node : Node)
      (action domainName : String) (resp : Node) (out1 : DomainsReg × Domain)
      (out : DomainsReg × List PubEvent × List ReadCall),
      getDomainForNode cfg node = some domainName →
      action ≠ "delete" → action ≠ "expire" →
      store (cfg.domainPrefix ++ "/" ++ domainName) false = some resp →
      registerDomainWalk cfg domains resp.nodes (cfg.domainPrefix ++ "/" ++ domainName)
        { typ := "", value := "", config := none } = some out1 →
      (∀ n ∈ resp.nodes, getDomainForNode cfg n = some domainName) →
      registerDomain cfg store domains node action = some out →
      lookupA out.1 domainName = lookupA domains domainName →
      out.1 = domains ∧ out.2.1 = [] ∧
        registerDomain cfg store out.1 node action = some out) ∧
    (∀ (cfg : Config) (store : EtcdStore) (pl : ParseLocation) (pc : ParseServiceConfig)
      (services : ServicesReg) (node : Node) (action serviceName : String)
      (out : ServicesReg × List PubEvent × List ReadCall),
      getEnvForNode cfg node = some serviceName →
      registerService cfg store pl pc services node action = some out →
      lookupA out.1 serviceName = lookupA services serviceName →
      out.1 = services ∧ (∀ e ∈ out.2.1, e.isPublish = false) ∧
        registerService cfg store pl pc out.1 node action = some out) := by
  constructor
  · intro cfg store domains node action domainName resp out1 out
      hname hdel hexp hresp hwalk hwf hrun hsame
    have h := registerDomain_noop_of_entity_unchanged cfg store domains node action
      domainName resp out1 out hname hdel hexp hresp hwalk hwf hrun hsame
    refine ⟨h.1, h.2, ?_⟩
    rw [h.1]
    exact hrun
  · intro cfg store pl pc services node action serviceName out hname hrun hsame
    have h := registerService_noop_of_entity_unchanged cfg store pl pc services node
      action serviceName out hname hrun hsame
    refine ⟨h.1, h.2, ?_⟩
    rw [h.1]
    exact hrun

/-- Witness for C9: a put whose rebuilt domain and rebuilt service instance
equal the registered ones leaves both registries untouched, publishes nothing,
and re-running the registrar on the result reproduces it exactly. -/
theorem idempotent_when_entity_unchanged_witness :
    (([("d", (⟨"t", "v", none⟩ : Domain))] : DomainsReg) = [("d", ⟨"t", "v", none⟩)] ∧
      ([] : List PubEvent) = [] ∧
      registerDomain gcfg storePlainDomain [("d", ⟨"t", "v", none⟩)]
          (.mk "/domains/d/type" "t" []) "set" =
        some ([("d", ⟨"t", "v", none⟩)], [], [("/domains/d", false)])) ∧
    (([("s", (⟨[("1", plainInstance "1")]⟩ : ServiceCluster))] : ServicesReg) =
        [("s", ⟨[("1", plainInstance "1")]⟩)] ∧
      registerService gcfg storeOneInstance parseFail parseCfgFail
          [("s", ⟨[("1", plainInstance "1")]⟩)] (.mk "/services/s/1" "" []) "set" =
        some ([("s", ⟨[("1", plainInstance "1")]⟩)], [],
          [("/services/s", true), ("/services/s/1", true)])) := by
  constructor
  · exact idempotent_when_entity_unchanged.1 gcfg storePlainDomain
      [("d", ⟨"t", "v", none⟩)] (.mk "/domains/d/type" "t" []) "set" "d"
      (.mk "/domains/d" "" [.mk "/domains/d/type" "t" [], .mk "/domains/d/value" "v" []])
      ([("d", ⟨"t", "v", none⟩)], ⟨"t", "v", none⟩)
      ([("d", ⟨"t", "v", none⟩)], [], [("/domains/d", false)])
      (by decide) (by decide) (by decide) rfl (by decide) (by decide) (by decide) (by decide)
  · have h := idempotent_when_entity_unchanged.2 gcfg storeOneInstance parseFail parseCfgFail
      [("s", ⟨[("1", plainInstance "1")]⟩)] (.mk "/services/s/1" "" []) "set" "s"
      ([("s", ⟨[("1", plainInstance "1")]⟩)], [],
        [("/services/s", true), ("/services/s/1", true)])
      (by decide) (by decide) (by decide)
    exact ⟨h.1, h.2.2⟩

theorem serviceLoop_superset (cfg : Config) (store : EtcdStore) (pl : ParseLocation)
    (pc : ParseServiceConfig) (serviceName action : String) (hact : action ≠ "delete") :
    ∀ (nodes : List Node) (services : ServicesReg)
      (out : ServicesReg × List PubEvent × List ReadCall),
      serviceLoop cfg store pl pc serviceName action nodes services = some out →
      (∀ i, (clusterGetAt services serviceName i).isSome = true →
        (clusterGetAt out.1 serviceName i).isSome = true) ∧
      (∀ n ∈ nodes, ∀ i, getEnvIndexForNode cfg n = some i →
        (store (instanceKey cfg serviceName i) true).isSome = true →
        (clusterGetAt out.1 serviceName i).isSome = true) := by
  intro nodes
  induction nodes with
  | nil =>
    intro services out h
    unfold serviceLoop at h
    cases h
    exact ⟨fun i hi => hi, by simp⟩
  | cons n ns ih =>
    intro services out h
    unfold serviceLoop at h
    split at h
    next => simp at h
    next serviceIndex hidx =>
      split at h
      next hstore =>
        rcases Option.map_eq_some'.mp h with ⟨o, ho, hout⟩
        subst hout
        rcases ih _ _ ho with ⟨hA, hB⟩
        refine ⟨hA, ?_⟩
        intro n2 hn2 i hi hst
        rcases List.mem_cons.mp hn2 with hn2 | hn2
        · exfalso
          subst hn2
          rw [hidx] at hi
          injection hi with hi2
          subst hi2
          rw [hstore] at hst
          cases hst
        · exact hB n2 hn2 i hi hst
      next resp hstore =>
        split at h
        next hdel => exact absurd hdel hact
        next =>
          have hidx2 : (buildService pl pc serviceName serviceIndex
              (instanceKey cfg serviceName serviceIndex) resp.nodes).index = serviceIndex :=
            buildService_index _ _ _ _ _ _
          split at h
          next hneq =>
            rcases Option.map_eq_some'.mp h with ⟨o, ho, hout⟩
            subst hout
            rcases ih _ _ ho with ⟨hA, hB⟩
            have hstep : ∀ i, (clusterGetAt services serviceName i).isSome = true →
                (clusterGetAt
                  (insertA (ensureCluster services serviceName) serviceName
                    (((lookupA (ensureCluster services serviceName) serviceName).getD ⟨[]⟩).Add
                      (buildService pl pc serviceName serviceIndex
                        (instanceKey cfg serviceName serviceIndex) resp.nodes)))
                  serviceName i).isSome = true := by
              intro i hi
              rcases hl : lookupA services serviceName with _ | c0
              · exfalso
                unfold clusterGetAt at hi
                rw [hl] at hi
                cases hi
              · unfold clusterGetAt at hi ⊢
                rw [hl] at hi
                rw [lookupA_insertA_self]
                rw [ensureCluster_of_some _ _ _ hl, hl]
                by_cases hieq : i = (buildService pl pc serviceName serviceIndex
                    (instanceKey cfg serviceName serviceIndex) resp.nodes).index
                · rw [hieq]
                  show ((ServiceCluster.Add _ _).Get _).isSome = true
                  rw [ClusterGet_Add_self]
                  rfl
                · show ((ServiceCluster.Add _ _).Get i).isSome = true
                  rw [ClusterGet_Add_ne _ _ _ hieq]
                  exact hi
            refine ⟨fun i hi => hA i (hstep i hi), ?_⟩
            intro n2 hn2 i hi hst
            rcases List.mem_cons.mp hn2 with hn2 | hn2
            · subst hn2
              rw [hidx] at hi
              injection hi with hi2
              subst hi2
              apply hA
              unfold clusterGetAt
              rw [lookupA_insertA_self]
              have hg := ClusterGet_Add_self
                ((lookupA (ensureCluster services serviceName) serviceName).getD ⟨[]⟩)
                (buildService pl pc serviceName serviceIndex
                  (instanceKey cfg serviceName serviceIndex) resp.nodes)
              rw [hidx2] at hg
              show ((ServiceCluster.Add _ _).Get serviceIndex).isSome = true
              rw [hg]
              rfl
            · exact hB n2 hn2 i hi hst
          next hneq =>
            have heq : serviceEquals
                (((lookupA (ensureCluster services serviceName) serviceName).getD ⟨[]⟩).Get
                  (buildService pl pc serviceName serviceIndex
                    (instanceKey cfg serviceName serviceIndex) resp.nodes).index)
                (buildService pl pc serviceName serviceIndex
                  (instanceKey cfg serviceName serviceIndex) resp.nodes) = true := by
              rcases hb : serviceEquals
                (((lookupA (ensureCluster services serviceName) serviceName).getD ⟨[]⟩).Get
                  (buildService pl pc serviceName serviceIndex
                    (instanceKey cfg serviceName serviceIndex) resp.nodes).index)
                (buildService pl pc serviceName serviceIndex
                  (instanceKey cfg serviceName serviceIndex) resp.nodes) with _ | _
              · exact absurd hb hneq
              · rfl
            have hsome := serviceEquals_true_eq _ _ heq
            rcases hl : lookupA services serviceName with _ | c0
            · exfalso
              rw [lookupA_ensureCluster_self, hl] at hsome
              simp [ServiceCluster.Get, lookupA] at hsome
            · rw [ensureCluster_of_some _ _ _ hl] at h hsome
              rcases Option.map_eq_some'.mp h with ⟨o, ho, hout⟩
              subst hout
              rcases ih _ _ ho with ⟨hA, hB⟩
              refine ⟨hA, ?_⟩
              intro n2 hn2 i hi hst
              rcases List.mem_cons.mp hn2 with hn2 | hn2
              · subst hn2
                rw [hidx] at hi
                injection hi with hi2
                subst hi2
                apply hA
                unfold clusterGetAt
                rw [hl]
                rw [hl] at hsome
                rw [hidx2] at hsome
                have hsome2 : c0.Get serviceIndex =
                    some (buildService pl pc serviceName serviceIndex
                      (instanceKey cfg serviceName serviceIndex) resp.nodes) := hsome
                show (c0.Get serviceIndex).isSome = true
                rw [hsome2]
                rfl
              · exact hB n2 hn2 i hi hst

theorem lookupA_ensureCluster_ne (services : ServicesReg) (name k : String) (h : k ≠ name) :
    lookupA (ensureCluster services name) k = lookupA services k := by
  unfold ensureCluster
  split
  · exact lookupA_insertA_ne _ _ _ _ h
  · rfl

/-- C2, amended: a delete action removes the entire ServiceCluster provided
the recursive read of the service's root key succeeds and the first listed
instance's own read succeeds (the removal sits inside the per-instance loop);
other registry entries are untouched. When the root read fails — which is
exactly what happens once the service's keys are gone from the store — no
removal happens (see the counterexample). -/
theorem service_delete_removes_cluster_when_readable (cfg : Config) (store : EtcdStore)
    (pl : ParseLocation) (pc : ParseServiceConfig) (services : ServicesReg) (node : Node)
    (serviceName : String) (rootNode indexNode : Node) (rest : List Node)
    (serviceIndex : String) (resp : Node) (out : ServicesReg × List PubEvent × List ReadCall)
    (hname : getEnvForNode cfg node = some serviceName)
    (hroot : store (cfg.servicePrefix ++ "/" ++ serviceName) true = some rootNode)
    (hnodes : rootNode.nodes = indexNode :: rest)
    (hidx : getEnvIndexForNode cfg indexNode = some serviceIndex)
    (hinst : store (instanceKey cfg serviceName serviceIndex) true = some resp)
    (hrun : registerService cfg store pl pc services node "delete" = some out) :
    lookupA out.1 serviceName = none ∧
    (∀ k, k ≠ serviceName → lookupA out.1 k = lookupA services k) := by
  unfold registerService at hrun
  rw [hname] at hrun
  simp only at hrun
  rw [hroot] at hrun
  rcases Option.map_eq_some'.mp hrun with ⟨o, ho, hout⟩
  subst hout
  rw [hnodes] at ho
  unfold serviceLoop at ho
  rw [hidx] at ho
  simp only at ho
  rw [hinst] at ho
  simp only [if_pos rfl] at ho
  have ho2 : o = (RemoveEnv (ensureCluster services serviceName) serviceName,
      [PubEvent.serviceRemove serviceName], [(instanceKey cfg serviceName serviceIndex, true)]) := by
    injection ho with ho3
    exact ho3.symm
  subst ho2
  constructor
  · exact lookupA_eraseA_self _ _
  · intro k hk
    show lookupA (eraseA (ensureCluster services serviceName) serviceName) k = _
    rw [lookupA_eraseA_ne _ _ _ hk, lookupA_ensureCluster_ne _ _ _ hk]

/-- Witness for C2's amended theorem: deleting with a readable store removes
cluster `s` from the registry. -/
theorem service_delete_removes_cluster_witness :
    lookupA ([] : ServicesReg) "s" = none := by
  have h := service_delete_removes_cluster_when_readable gcfg storeOneInstance
    parseFail parseCfgFail [("s", ⟨[("1", plainInstance "1")]⟩)]
    (.mk "/services/s/1" "" []) "s"
    (.mk "/services/s" "" [.mk "/services/s/1" "" []]) (.mk "/services/s/1" "" []) [] "1"
    (.mk "/services/s/1" "" [])
    ([], [PubEvent.serviceRemove "s"], [("/services/s", true), ("/services/s/1", true)])
    (by decide) rfl rfl (by decide) rfl (by decide)
  exact h.1

/-- Counterexample for C2 as stated: a delete action delivered for a key under
service `s` while the root read fails (the subtree is already gone from the
store) leaves the entire ServiceCluster registered — nothing is removed. -/
theorem service_delete_rootReadFail_keeps_cluster :
    registerService gcfg storeNone parseFail parseCfgFail
        [("s", ⟨[("1", plainInstance "1")]⟩)] (.mk "/services/s/1" "" []) "delete" =
      some ([("s", ⟨[("1", plainInstance "1")]⟩)], [], [("/services/s", true)]) ∧
    lookupA [("s", (⟨[("1", plainInstance "1")]⟩ : ServiceCluster))] "s" =
      some ⟨[("1", plainInstance "1")]⟩ := by
  exact ⟨by decide, by decide⟩

/-- C5: when the recursive read of the service's root key fails, the service
registrar performs no mutation at all — the returned registry is exactly the
input one, no publish event is emitted, and the only store interaction is the
failed root read (the Go code only logs an error on this path). -/
theorem service_rootReadFail_no_mutation (cfg : Config) (store : EtcdStore)
    (pl : ParseLocation) (pc : ParseServiceConfig) (services : ServicesReg)
    (node : Node) (action serviceName : String)
    (hname : getEnvForNode cfg node = some serviceName)
    (hroot : store (cfg.servicePrefix ++ "/" ++ serviceName) true = none) :
    registerService cfg store pl pc services node action =
      some (services, [], [(cfg.servicePrefix ++ "/" ++ serviceName, true)]) := by
  unfold registerService
  rw [hname]
  simp only
  rw [hroot]

/-- Witness for C5 at a concrete input: every read of `storeNone` fails. -/
theorem service_rootReadFail_no_mutation_witness :
    registerService gcfg storeNone parseFail parseCfgFail
        [("s", ⟨[("1", plainInstance "1")]⟩)] (.mk "/services/s/1/location" "" []) "set" =
      some ([("s", ⟨[("1", plainInstance "1")]⟩)], [], [("/services/s", true)]) := by
  exact service_rootReadFail_no_mutation gcfg storeNone parseFail parseCfgFail
    [("s", ⟨[("1", plainInstance "1")]⟩)] (.mk "/services/s/1/location" "" []) "set" "s"
    (by decide) rfl

/-- C3 (code bug): a delete or expire for a key under a domain's settings
branch while that domain is not registered makes `removeDomainConfiguration`
dereference a nil `*Domain` — a Go runtime panic, modelled as `none` — instead
of the no-op the spec claims for an absent Domain. The second conjunct shows
the intended behavior when the Domain is present: exactly the one settings
entry `x` is removed and `typ`/`value` and the other entries survive. -/
theorem removeDomainConfiguration_panics_when_domain_absent :
    registerDomain gcfg storeNone [] (.mk "/domains/d/config/x" "" []) "delete" = none ∧
    registerDomain gcfg storeNone [("d", ⟨"t", "v", some [("x", "1"), ("y", "2")]⟩)]
        (.mk "/domains/d/config/x" "" []) "delete" =
      some ([("d", ⟨"t", "v", some [("y", "2")]⟩)], [], [("/domains/d", false)]) := by
  exact ⟨by decide, by decide⟩

/-- C4 (code bug): the put path of the domain registrar does not do what the
claim says. Its read of the domain key is non-recursive (`client.Get(domainKey,
true, false)` — the recorded read carries the flag `false`, third conjunct),
and the walk writes every settings leaf into the currently registered Domain
in place rather than into a fresh merged mapping: with domain `d` absent, a
put whose reply holds the settings leaf `/domains/d/config/x` dereferences a
nil `*Domain` and panics (first conjunct, `none`); with `d` registered, the
freshly published Domain carries no settings at all (`config = none`, a Go nil
map) although the store reply holds a settings leaf (second conjunct). -/
theorem registerDomain_put_settings_divergence :
    registerDomain gcfg storeConfigDomain [] (.mk "/domains/d/type" "t" []) "set" = none ∧
    registerDomain gcfg storeConfigDomain [("d", ⟨"old", "v", some []⟩)]
        (.mk "/domains/d/type" "t" []) "set" =
      some ([("d", ⟨"t", "v", none⟩)], [PubEvent.domainPub "d" "t" "v"],
        [("/domains/d", false)]) ∧
    registerDomain gcfg storePlainDomain [] (.mk "/domains/d/type" "t" []) "set" =
      some ([("d", ⟨"t", "v", none⟩)], [PubEvent.domainPub "d" "t" "v"],
        [("/domains/d", false)]) := by
  exact ⟨by decide, by decide, by decide⟩

/-- C8, amended: for a store key path in which neither configured prefix
followed by `/` occurs as a substring — the no-match domain of the unanchored
Go regexps — the guarded settings matcher reports no match and the
settings-removal helper is a side-effect-free no-op, but the name/index
extraction helpers and the settings-key extractor do not return a no-match
result: in Go they index a nil submatch slice, a runtime panic, modelled as
`none` here. Out-of-schema keys that contain a prefix mid-string are not
rejected at all: the unanchored patterns match from the leftmost prefix
occurrence and the key is processed as if well-formed, as the final three
conjuncts show on `/x/domains/d/config/y` (where the unguarded settings
removal then nil-panics on the unregistered name). -/
theorem decoders_out_of_schema_behavior (cfg : Config) (domains : DomainsReg) (node : Node)
    (hdom : matchPrefixRest cfg.domainPrefix node.key = none)
    (hsvc : matchPrefixRest cfg.servicePrefix node.key = none) :
    isDomainConfiguration cfg node = false ∧
    removeDomainConfiguration cfg domains node = some domains ∧
    getDomainForNode cfg node = none ∧
    getEnvForNode cfg node = none ∧
    getEnvIndexForNode cfg node = none ∧
    getDomainConfiguration cfg node = none ∧
    getDomainForNode gcfg (.mk "/x/domains/d/config/y" "" []) = some "d" ∧
    isDomainConfiguration gcfg (.mk "/x/domains/d/config/y" "" []) = true ∧
    removeDomainConfiguration gcfg [] (.mk "/x/domains/d/config/y" "" []) = none := by
  refine ⟨?_, ?_, ?_, ?_, ?_, ?_, by decide, by decide, by decide⟩
  · unfold isDomainConfiguration
    rw [hdom]
  · unfold removeDomainConfiguration
    rw [hdom]
  · unfold getDomainForNode
    rw [hdom]
    rfl
  · unfold getEnvForNode
    rw [hsvc]
    rfl
  · unfold getEnvIndexForNode
    rw [hsvc]
    rfl
  · unfold getDomainConfiguration
    rw [hdom]
    rfl

/-- Witness for C8's amended theorem at the key `"foo"`, which contains
neither prefix. -/
theorem decoders_out_of_schema_behavior_witness :
    isDomainConfiguration gcfg (.mk "foo" "" []) = false ∧
    removeDomainConfiguration gcfg [] (.mk "foo" "" []) = some [] ∧
    getDomainForNode gcfg (.mk "foo" "" []) = none ∧
    getEnvForNode gcfg (.mk "foo" "" []) = none ∧
    getEnvIndexForNode gcfg (.mk "foo" "" []) = none ∧
    getDomainConfiguration gcfg (.mk "foo" "" []) = none ∧
    getDomainForNode gcfg (.mk "/x/domains/d/config/y" "" []) = some "d" ∧
    isDomainConfiguration gcfg (.mk "/x/domains/d/config/y" "" []) = true ∧
    removeDomainConfiguration gcfg [] (.mk "/x/domains/d/config/y" "" []) = none := by
  exact decoders_out_of_schema_behavior gcfg [] (.mk "foo" "" []) (by decide) (by decide)

/-- Counterexample for C8 as stated: the decoders do not "return no match and
never panic" on out-of-schema paths. On the key `"foo"` the domain-name
extractor hits a Go panic (indexing a nil submatch slice; `none` in this
embedding, which has no non-panicking no-match result to return, just as the
Go function's `string` return type has none), and on `/services/s` — a key
under the service prefix but without an instance segment — the index extractor
panics with index-out-of-range. -/
theorem getDomainForNode_out_of_schema_is_panic :
    getDomainForNode gcfg (.mk "foo" "" []) = none ∧
    getEnvIndexForNode gcfg (.mk "/services/s" "" []) = none := by
  exact ⟨by decide, by decide⟩

/-- C7, amended: after a non-delete service registrar invocation whose root
read succeeds, the resulting cluster contains every instance index present in
the store's current subtree whose own read succeeds (the registrar inserts or
refreshes them), but it is a superset only: stale indices that have left the
store are not pruned, and a delete action removes the whole cluster instead. -/
theorem service_put_cluster_superset (cfg : Config) (store : EtcdStore)
    (pl : ParseLocation) (pc : ParseServiceConfig) (services : ServicesReg)
    (node : Node) (action serviceName : String) (rootNode : Node)
    (out : ServicesReg × List PubEvent × List ReadCall)
    (hact : action ≠ "delete")
    (hname : getEnvForNode cfg node = some serviceName)
    (hroot : store (cfg.servicePrefix ++ "/" ++ serviceName) true = some rootNode)
    (hrun : registerService cfg store pl pc services node action = some out) :
    ∀ n ∈ rootNode.nodes, ∀ i, getEnvIndexForNode cfg n = some i →
      (store (instanceKey cfg serviceName i) true).isSome = true →
      (clusterGetAt out.1 serviceName i).isSome = true := by
  unfold registerService at hrun
  rw [hname] at hrun
  simp only at hrun
  rw [hroot] at hrun
  rcases Option.map_eq_some'.mp hrun with ⟨o, ho, hout⟩
  subst hout
  exact (serviceLoop_superset cfg store pl pc serviceName action hact _ _ _ ho).2

/-- Witness for C7's amended theorem: after the initial put over a store with
instances `1` and `2`, index `2` is present in the cluster. -/
theorem service_put_cluster_superset_witness :
    (clusterGetAt [("s", ⟨[("1", plainInstance "1"), ("2", plainInstance "2")]⟩)]
      "s" "2").isSome = true := by
  have h := service_put_cluster_superset gcfg storeTwoInstances parseFail parseCfgFail []
    (.mk "/services/s/1" "" []) "set" "s"
    (.mk "/services/s" "" [.mk "/services/s/1" "" [], .mk "/services/s/2" "" []])
    ([("s", ⟨[("1", plainInstance "1"), ("2", plainInstance "2")]⟩)],
      [PubEvent.servicePub "s" none, PubEvent.servicePub "s" none],
      [("/services/s", true), ("/services/s/1", true), ("/services/s/2", true)])
    (by decide) (by decide) rfl (by decide)
  exact h (.mk "/services/s/2" "" [])
    (List.mem_cons_of_mem _ (List.mem_cons_self _ _)) "2" (by decide) (by decide)

/-- Counterexample for C7 as stated: starting from an empty registry, a put
builds cluster `s` with indices `1` and `2`; after instance `2` vanishes from
the store, a non-delete change event re-registers the service, yet index `2`
stays in the cluster although the store's current subtree for `s` (whose root
reply lists only one child, of index `1`) no longer contains it. -/
theorem cluster_retains_stale_index_counterexample :
    registerService gcfg storeTwoInstances parseFail parseCfgFail []
        (.mk "/services/s/1" "" []) "set" =
      some ([("s", ⟨[("1", plainInstance "1"), ("2", plainInstance "2")]⟩)],
        [PubEvent.servicePub "s" none, PubEvent.servicePub "s" none],
        [("/services/s", true), ("/services/s/1", true), ("/services/s/2", true)]) ∧
    registerService gcfg storeOneInstance parseFail parseCfgFail
        [("s", ⟨[("1", plainInstance "1"), ("2", plainInstance "2")]⟩)]
        (.mk "/services/s/2" "" []) "expire" =
      some ([("s", ⟨[("1", plainInstance "1"), ("2", plainInstance "2")]⟩)], [],
        [("/services/s", true), ("/services/s/1", true)]) ∧
    (clusterGetAt [("s", ⟨[("1", plainInstance "1"), ("2", plainInstance "2")]⟩)]
      "s" "2").isSome = true ∧
    storeOneInstance "/services/s" true =
      some (.mk "/services/s" "" [.mk "/services/s/1" "" []]) ∧
    getEnvIndexForNode gcfg (.mk "/services/s/1" "" []) = some "1" := by
  exact ⟨by decide, by decide, by decide, rfl, by decide⟩

theorem string_append_right_inj (s a b : String) : s ++ a = s ++ b ↔ a = b := by
  obtain ⟨sd⟩ := s
  obtain ⟨ad⟩ := a
  obtain ⟨bd⟩ := b
  constructor
  · intro h
    have h2 : sd ++ ad = sd ++ bd := congrArg String.data h
    exact congrArg String.mk (List.append_cancel_left h2)
  · intro h
    rw [h]

/-- C6: a service instance whose location leaf holds the JSON value that the
decode capability parses to host `10.0.0.5` and port `8080` is built with that
endpoint; an instance whose location leaf is unparsable is built with the zero
location (endpoint unset) while its remaining fields — here the `domain` leaf,
plus `name` and `index` — are still applied. `buildService` is total, so the
decode failure never aborts the surrounding registrar. -/
theorem location_decode_roundtrip (pl : ParseLocation) (pc : ParseServiceConfig)
    (serviceName serviceIndex serviceKey domVal badVal : String)
    (hgood : pl "\x7b\"Host\":\"10.0.0.5\",\"Port\":8080\x7d" = some ⟨"10.0.0.5", 8080⟩)
    (hbad : pl badVal = none) :
    ((buildService pl pc serviceName serviceIndex serviceKey
        [.mk (serviceKey ++ "/location") "\x7b\"Host\":\"10.0.0.5\",\"Port\":8080\x7d" [],
          .mk (serviceKey ++ "/domain") domVal []]).location = ⟨"10.0.0.5", 8080⟩ ∧
      (buildService pl pc serviceName serviceIndex serviceKey
        [.mk (serviceKey ++ "/location") "\x7b\"Host\":\"10.0.0.5\",\"Port\":8080\x7d" [],
          .mk (serviceKey ++ "/domain") domVal []]).domain = domVal) ∧
    ((buildService pl pc serviceName serviceIndex serviceKey
        [.mk (serviceKey ++ "/location") badVal [],
          .mk (serviceKey ++ "/domain") domVal []]).location = ⟨"", 0⟩ ∧
      (buildService pl pc serviceName serviceIndex serviceKey
        [.mk (serviceKey ++ "/location") badVal [],
          .mk (serviceKey ++ "/domain") domVal []]).domain = domVal ∧
      (buildService pl pc serviceName serviceIndex serviceKey
        [.mk (serviceKey ++ "/location") badVal [],
          .mk (serviceKey ++ "/domain") domVal []]).name = serviceName ∧
      (buildService pl pc serviceName serviceIndex serviceKey
        [.mk (serviceKey ++ "/location") badVal [],
          .mk (serviceKey ++ "/domain") domVal []]).index = serviceIndex) := by
  have h1 : ("/location" : String) ≠ "/config" := by decide
  have h2 : ("/domain" : String) ≠ "/location" := by decide
  have h3 : ("/domain" : String) ≠ "/config" := by decide
  simp [buildService, List.foldl_cons, List.foldl_nil, serviceFieldUpdate,
    Node.key, Node.value, string_append_right_inj, h1, h2, h3, hgood, hbad]

/-- Witness for C6 with the concrete decode capability `parseSample`, which
parses exactly the claim's location value, and the unparsable value `"bogus"`. -/
theorem location_decode_roundtrip_witness :
    ((buildService parseSample parseCfgFail "orders" "1" "/services/orders/1"
        [.mk ("/services/orders/1" ++ "/location")
            "\x7b\"Host\":\"10.0.0.5\",\"Port\":8080\x7d" [],
          .mk ("/services/orders/1" ++ "/domain") "api" []]).location = ⟨"10.0.0.5", 8080⟩ ∧
      (buildService parseSample parseCfgFail "orders" "1" "/services/orders/1"
        [.mk ("/services/orders/1" ++ "/location")
            "\x7b\"Host\":\"10.0.0.5\",\"Port\":8080\x7d" [],
          .mk ("/services/orders/1" ++ "/domain") "api" []]).domain = "api") ∧
    ((buildService parseSample parseCfgFail "orders" "1" "/services/orders/1"
        [.mk ("/services/orders/1" ++ "/location") "bogus" [],
          .mk ("/services/orders/1" ++ "/domain") "api" []]).location = ⟨"", 0⟩ ∧
      (buildService parseSample parseCfgFail "orders" "1" "/services/orders/1"
        [.mk ("/services/orders/1" ++ "/location") "bogus" [],
          .mk ("/services/orders/1" ++ "/domain") "api" []]).domain = "api" ∧
      (buildService parseSample parseCfgFail "orders" "1" "/services/orders/1"
        [.mk ("/services/orders/1" ++ "/location") "bogus" [],
          .mk ("/services/orders/1" ++ "/domain") "api" []]).name = "orders" ∧
      (buildService parseSample parseCfgFail "orders" "1" "/services/orders/1"
        [.mk ("/services/orders/1" ++ "/location") "bogus" [],
          .mk ("/services/orders/1" ++ "/domain") "api" []]).index = "1") := by
  exact location_decode_roundtrip parseSample parseCfgFail "orders" "1" "/services/orders/1"
    "api" "bogus" (by decide) (by decide)

/-- C10: the three removal operations are frame-local. `RemoveDomain` leaves
every domain other than the removed one unchanged; `removeDomainConfiguration`
leaves every domain other than the targeted one — the whole regexp group 1,
exactly the registry key the source indexes — unchanged, and at the targeted
domain keeps `typ` and `value` and removes only the matched settings key, all
other config keys surviving; `RemoveEnv` leaves every cluster other than the
removed one unchanged. -/
theorem remove_operations_frame :
    (∀ (domains : DomainsReg) (d k : String), k ≠ d →
      lookupA (RemoveDomain domains d) k = lookupA domains k) ∧
    (∀ (cfg : Config) (domains out : DomainsReg) (node : Node)
      (rest : List Char) (g : List Char × List Char),
      matchPrefixRest cfg.domainPrefix node.key = some rest →
      lastSplit "/config/".data rest = some g →
      removeDomainConfiguration cfg domains node = some out →
      (∀ k, k ≠ String.mk g.1 → lookupA out k = lookupA domains k) ∧
      (∀ d0, lookupA domains (String.mk g.1) = some d0 →
        lookupA out (String.mk g.1) =
          some { d0 with config := goMapDelete d0.config (String.mk (firstSeg g.2)) }) ∧
      (∀ (m : List (String × String)) (k2 : String), k2 ≠ String.mk (firstSeg g.2) →
        lookupA (eraseA m (String.mk (firstSeg g.2))) k2 = lookupA m k2)) ∧
    (∀ (services : ServicesReg) (s k : String), k ≠ s →
      lookupA (RemoveEnv services s) k = lookupA services k) := by
  refine ⟨?_, ?_, ?_⟩
  · intro domains d k hk
    exact lookupA_eraseA_ne _ _ _ hk
  · intro cfg domains out node rest g hrest hsplit hrun
    unfold removeDomainConfiguration at hrun
    rw [hrest] at hrun
    simp only at hrun
    rw [hsplit] at hrun
    simp only at hrun
    rcases hdd : lookupA domains (String.mk g.1) with _ | d0
    · rw [hdd] at hrun
      simp at hrun
    · rw [hdd] at hrun
      simp only at hrun
      have hout : out = insertA domains (String.mk g.1)
          { d0 with config := goMapDelete d0.config (String.mk (firstSeg g.2)) } := by
        injection hrun with h2
        exact h2.symm
      subst hout
      refine ⟨?_, ?_, ?_⟩
      · intro k hk
        exact lookupA_insertA_ne _ _ _ _ hk
      · intro d1 hd1
        injection hd1 with hd2
        subst hd2
        exact lookupA_insertA_self _ _ _
      · intro m k2 hk2
        exact lookupA_eraseA_ne _ _ _ hk2
  · intro services s k hk
    exact lookupA_eraseA_ne _ _ _ hk

/-- Witness for C10 at concrete registries: removing domain `a` leaves `b`
untouched, removing the settings entry `x` of `d` leaves the other domain `e`
and the other entry `y` untouched while keeping `typ`/`value`, and removing
cluster `s` leaves `u` untouched. -/
theorem remove_operations_frame_witness :
    lookupA (RemoveDomain [("a", (⟨"t", "v", none⟩ : Domain)), ("b", ⟨"t2", "v2", none⟩)] "a")
        "b" =
      lookupA [("a", (⟨"t", "v", none⟩ : Domain)), ("b", ⟨"t2", "v2", none⟩)] "b" ∧
    lookupA [("d", (⟨"t", "v", some [("y", "2")]⟩ : Domain)),
        ("e", ⟨"t3", "v3", none⟩)] "e" =
      lookupA [("d", (⟨"t", "v", some [("x", "1"), ("y", "2")]⟩ : Domain)),
        ("e", ⟨"t3", "v3", none⟩)] "e" ∧
    lookupA [("d", (⟨"t", "v", some [("y", "2")]⟩ : Domain)),
        ("e", ⟨"t3", "v3", none⟩)] "d" =
      some ⟨"t", "v", goMapDelete (some [("x", "1"), ("y", "2")]) "x"⟩ ∧
    lookupA (eraseA [("x", "1"), ("y", "2")] "x") "y" = lookupA [("x", "1"), ("y", "2")] "y" ∧
    lookupA (RemoveEnv [("s", (⟨[]⟩ : ServiceCluster)), ("u", ⟨[]⟩)] "s") "u" =
      lookupA [("s", (⟨[]⟩ : ServiceCluster)), ("u", ⟨[]⟩)] "u" := by
  have h := remove_operations_frame
  have h2 := h.2.1 gcfg
    [("d", (⟨"t", "v", some [("x", "1"), ("y", "2")]⟩ : Domain)), ("e", ⟨"t3", "v3", none⟩)]
    [("d", (⟨"t", "v", some [("y", "2")]⟩ : Domain)), ("e", ⟨"t3", "v3", none⟩)]
    (.mk "/domains/d/config/x" "" []) ("d/config/x".data) ("d".data, "x".data)
    (by decide) (by decide) (by decide)
  refine ⟨h.1 _ "a" "b" (by decide), ?_, ?_, ?_, h.2.2 _ "s" "u" (by decide)⟩
  · exact h2.1 "e" (by decide)
  · exact h2.2.1 ⟨"t", "v", some [("x", "1"), ("y", "2")]⟩ (by decide)
  · exact h2.2.2 [("x", "1"), ("y", "2")] "y" (by decide)

/-- Witness for C1 at a concrete input: the read of `/domains/d` yields type
`t` and value `v`, the registry is empty, so the rebuilt Domain is published. -/
theorem domain_publish_iff_witness :
    registerDomain gcfg storePlainDomain [] (.mk "/domains/d/type" "t" []) "set" =
      some ([("d", ⟨"t", "v", none⟩)], [PubEvent.domainPub "d" "t" "v"], [("/domains/d", false)]) ∧
    ([PubEvent.domainPub "d" "t" "v"] : List PubEvent) ≠ [] := by
  refine ⟨by decide, ?_⟩
  have h := domain_publish_iff gcfg storePlainDomain [] (.mk "/domains/d/type" "t" []) "set" "d"
    (.mk "/domains/d" "" [.mk "/domains/d/type" "t" [], .mk "/domains/d/value" "v" []])
    ([], ⟨"t", "v", none⟩)
    ([("d", ⟨"t", "v", none⟩)], [PubEvent.domainPub "d" "t" "v"], [("/domains/d", false)])
    (by decide) (by decide) (by decide) rfl (by decide) (by decide)
  exact h.1.mpr (by decide)

end Gogeta
